import Mathlib

/- Batteries marks the `Rat` field operations `@[irreducible]`, which blocks
`decide`-style evaluation of concrete rational arithmetic; restore the normal
reducibility so the executable model can be run inside proofs. -/
set_option allowUnsafeReducibility true
attribute [semireducible] Rat.add Rat.sub Rat.neg Rat.mul Rat.inv Rat.div

/-!
# Verification of the Personal Expense Tracker data logic

A shallow embedding of `PersonalExpenseTracker.py`.  The persisted CSV file is
modelled as `Option (List Row)` (`none` = the file does not exist, `some rows`
= the file holds `rows` in order, each cell kept as the raw string it has in
the file).  Pandas' `to_datetime(errors="coerce")` and
`to_numeric(errors="coerce")` are modelled by executable parsers returning
`Option`; a `none` result is the `NaT`/`NaN` a coerce failure produces, and
`dropna` is the corresponding filter.  `groupby(...).sum()` is modelled by an
executable association-list fold.  Amounts are rationals: the Python floats
are out of scope, the claims under study are about which rows are summed and
the exact arithmetic of small decimal inputs.  Appending re-reads the stored
file through `read_csv` and rewrites it with `to_csv`, and that cycle is not
the identity on cells: NA tokens read as `NaN` and are written back empty,
and a column inferred numeric is re-serialized in canonical form; the model
carries this column-wise normalization in `readWriteCycle`.
-/

namespace ExpenseTracker

/-- Equality of `Except` results is decidable componentwise. -/
instance {ε α : Type} [DecidableEq ε] [DecidableEq α] : DecidableEq (Except ε α) :=
  fun a b =>
    match a, b with
    | .error e, .error f =>
        if h : e = f then isTrue (by rw [h]) else isFalse (by simp [h])
    | .ok x, .ok y =>
        if h : x = y then isTrue (by rw [h]) else isFalse (by simp [h])
    | .error _, .ok _ => isFalse (by simp)
    | .ok _, .error _ => isFalse (by simp)

/-- One raw row of the CSV file, each field as stored text. -/
structure Row where
  date : String
  amount : String
  category : String
  descr : String
deriving DecidableEq, Repr

/-- A calendar date, the result of a successful date coercion. -/
structure Date where
  year : Nat
  monthNum : Nat
  day : Nat
deriving DecidableEq, Repr

/-- A month key: a date truncated to calendar year and month
(`df["Date"].dt.to_period("M")`). -/
structure Month where
  year : Nat
  monthNum : Nat
deriving DecidableEq, Repr

def Date.toMonth (d : Date) : Month := ⟨d.year, d.monthNum⟩

/-- Split a character list at every occurrence of `sep`. -/
def splitOnChar (sep : Char) : List Char → List (List Char)
  | [] => [[]]
  | c :: cs =>
    match splitOnChar sep cs with
    | [] => if c = sep then [[], [c]] else [[c]]
    | h :: t => if c = sep then [] :: h :: t else (c :: h) :: t

/-- Digit string to number; `none` on the empty string or a non-digit. -/
def parseNatDigits (cs : List Char) : Option Nat :=
  if cs.isEmpty then none
  else
    cs.foldl
      (fun acc c =>
        match acc with
        | some n =>
            if 48 ≤ c.toNat ∧ c.toNat ≤ 57 then some (n * 10 + (c.toNat - 48))
            else none
        | none => none)
      (some 0)

def isLeapYear (y : Nat) : Bool :=
  (y % 4 == 0 && y % 100 != 0) || y % 400 == 0

def daysInMonth (y m : Nat) : Nat :=
  if m = 2 then (if isLeapYear y then 29 else 28)
  else if m = 4 ∨ m = 6 ∨ m = 9 ∨ m = 11 then 30
  else 31

/-- Model of `pd.to_datetime(s, errors="coerce")` on the ISO dates this
program writes (`YYYY-MM-DD`): `none` is `NaT`. -/
def parseDate (s : String) : Option Date :=
  match splitOnChar (Char.ofNat 45) s.data with
  | [ys, ms, ds] =>
    match parseNatDigits ys, parseNatDigits ms, parseNatDigits ds with
    | some y, some m, some d =>
        if 1 ≤ m ∧ m ≤ 12 ∧ 1 ≤ d ∧ d ≤ daysInMonth y m then some ⟨y, m, d⟩
        else none
    | _, _, _ => none
  | _ => none

/-- Value of a fractional-digits string `fp` as `fp / 10 ^ len`. -/
def parseFrac (cs : List Char) : Option ℚ :=
  if cs.isEmpty then none
  else (parseNatDigits cs).map (fun n => (n : ℚ) / (10 : ℚ) ^ cs.length)

def parseUnsignedAmount (cs : List Char) : Option ℚ :=
  match splitOnChar (Char.ofNat 46) cs with
  | [ip] => (parseNatDigits ip).map (fun n => (n : ℚ))
  | [ip, fp] =>
    if ip.isEmpty then parseFrac fp
    else if fp.isEmpty then (parseNatDigits ip).map (fun n => (n : ℚ))
    else
      match parseNatDigits ip, parseFrac fp with
      | some n, some f => some ((n : ℚ) + f)
      | _, _ => none
  | _ => none

/-- Model of `pd.to_numeric(s, errors="coerce")` on decimal literals:
`none` is `NaN`. -/
def parseAmount (s : String) : Option ℚ :=
  match s.data with
  | c :: rest =>
      if c.toNat = 45 then (parseUnsignedAmount rest).map Neg.neg
      else parseUnsignedAmount s.data
  | [] => none

/-- A row after both coercions succeeded: its month key, numeric amount and
category, as the report and forecast use it. -/
structure VRow where
  month : Month
  amount : ℚ
  category : String
deriving DecidableEq, Repr

/-- The row-cleaning pipeline shared by `view_report` and
`predict_the_next_month`: coerce `Date`, drop failures, take the month key,
coerce `Amount`, drop failures. -/
def parseRow (r : Row) : Option VRow :=
  match parseDate r.date, parseAmount r.amount with
  | some d, some a => some ⟨d.toMonth, a, r.category⟩
  | _, _ => none

def validRows (rows : List Row) : List VRow :=
  rows.filterMap parseRow

section GroupSum

variable {α κ : Type} [DecidableEq κ]

/-- Add `v` to the entry of key `k`, or append a fresh entry. -/
def upsert (k : κ) (v : ℚ) : List (κ × ℚ) → List (κ × ℚ)
  | [] => [(k, v)]
  | (k', v') :: rest =>
      if k = k' then (k', v' + v) :: rest else (k', v') :: upsert k v rest

/-- Model of `df.groupby(key)[val].sum()`: one entry per distinct key,
holding the sum of `val` over the rows with that key. -/
def groupSum (key : α → κ) (val : α → ℚ) : List α → List (κ × ℚ)
  | [] => []
  | x :: xs => upsert (key x) (val x) (groupSum key val xs)

/-- First value bound to `k`, if any. -/
def lookupQ (k : κ) : List (κ × ℚ) → Option ℚ
  | [] => none
  | (k', v) :: rest => if k = k' then some v else lookupQ k rest

end GroupSum

/-- The report table `unstack(fill_value=0)` produces: the grouped cells
plus the distinct months (index) and distinct categories (columns). -/
structure ReportTable where
  cells : List ((Month × String) × ℚ)
  months : List Month
  categories : List String
deriving DecidableEq, Repr

/-- A cell of the report: the stored group sum, `0` where `unstack` filled. -/
def reportCell (t : ReportTable) (m : Month) (c : String) : ℚ :=
  (lookupQ (m, c) t.cells).getD 0

def buildReport (vr : List VRow) : ReportTable :=
  { cells := groupSum (fun r => (r.month, r.category)) VRow.amount vr
    months := (vr.map VRow.month).dedup
    categories := (vr.map VRow.category).dedup }

/-- `view_report()`: the pair `(error, report)` the Python function returns;
a missing file yields the no-data message and no table, otherwise the
cleaned rows are grouped by month and category and summed. -/
def viewReport (file : Option (List Row)) : Option String × Option ReportTable :=
  match file with
  | none => (some "No expenses recorded yet!", none)
  | some rows => (none, some (buildReport (validRows rows)))

/-- The forecaster's per-month totals
(`df.groupby("Month")["Amount"].sum()`). -/
def monthlyTotals (vr : List VRow) : List (Month × ℚ) :=
  groupSum VRow.month VRow.amount vr

/-- `predict_the_next_month()`: `.error` is the no-data message; `.ok none`
is the `NaN` a mean over zero months produces; `.ok (some q)` is a numeric
prediction. -/
def predictTheNextMonth (file : Option (List Row)) : Except String (Option ℚ) :=
  match file with
  | none => .error "No expenses recorded yet!"
  | some rows =>
    let ts := monthlyTotals (validRows rows)
    if ts.isEmpty then .ok none
    else .ok (some ((ts.map Prod.snd).sum / (ts.length : ℚ)))

/-- `calculate_the_monthly_budget(yearly_income, savings_goal)`. -/
def calculateTheMonthlyBudget (yearlyIncome savingsGoal : ℚ) : ℚ × ℚ :=
  let monthlyIncome := yearlyIncome / 12
  (monthlyIncome, monthlyIncome - savingsGoal)

/-- The default NA tokens of `pd.read_csv`: a stored cell holding one of
these (or nothing) reads back as `NaN`, which `to_csv` then writes as an
empty cell. -/
def isNAToken (s : String) : Bool :=
  (["", "NA", "N/A", "NaN", "nan", "NULL", "null", "None", "n/a", "<NA>",
    "#N/A", "#NA"] : List String).contains s

/-- Whether a cell reads as an integer: an optional minus sign and then
digits, nothing else. -/
def cellIsInt (s : String) : Bool :=
  match s.data with
  | [] => false
  | c :: rest =>
      if c.toNat = 45 then
        !rest.isEmpty && rest.all fun d => decide (48 ≤ d.toNat) && decide (d.toNat ≤ 57)
      else
        (c :: rest).all fun d => decide (48 ≤ d.toNat) && decide (d.toNat ≤ 57)

/-- Digits with the leading zeros removed (a lone zero kept). -/
def stripLeadingZeros (cs : List Char) : List Char :=
  match cs.dropWhile (fun c => decide (c.toNat = 48)) with
  | [] => [Char.ofNat 48]
  | r => r

/-- Digits with the trailing zeros removed (possibly nothing left). -/
def stripTrailingZeros (cs : List Char) : List Char :=
  ((cs.reverse.dropWhile fun c => decide (c.toNat = 48))).reverse

/-- How an `int64` column cell is re-serialized: the canonical decimal form
of its value (`"05"` becomes `"5"`, `"-0"` becomes `"0"`). -/
def intNormalize (s : String) : String :=
  match s.data with
  | [] => s
  | c :: rest =>
      if c.toNat = 45 then
        let digs := stripLeadingZeros rest
        if digs = [Char.ofNat 48] then "0" else String.mk (c :: digs)
      else String.mk (stripLeadingZeros (c :: rest))

/-- Assemble the canonical float form `[-]int.frac` with a lone zero where a
part is empty (`float64` repr always shows one fractional digit). -/
def floatRender (neg : Bool) (ip fp : List Char) : String :=
  let ip2 := stripLeadingZeros ip
  let fp2 :=
    match stripTrailingZeros fp with
    | [] => [Char.ofNat 48]
    | r => r
  String.mk ((if neg then [Char.ofNat 45] else []) ++ ip2 ++ Char.ofNat 46 :: fp2)

def floatNormalizeBody (neg : Bool) (body : List Char) (orig : String) : String :=
  match splitOnChar (Char.ofNat 46) body with
  | [ip] => floatRender neg ip []
  | [ip, fp] => floatRender neg ip fp
  | _ => orig

/-- How a `float64` column cell is re-serialized: the shortest decimal of
its value (`"12.50"` becomes `"12.5"`, `"100"` becomes `"100.0"`,
`".5"` becomes `"0.5"`).  On this model's decimal-literal universe the
parse-then-repr cycle of `float64` is exactly this string normalization. -/
def floatNormalize (s : String) : String :=
  match s.data with
  | [] => s
  | c :: rest =>
      if c.toNat = 45 then floatNormalizeBody true rest s
      else floatNormalizeBody false (c :: rest) s

/-- What one `read_csv`/`to_csv` cycle does to one cell of a stored column,
determined by `read_csv`'s dtype inference over the whole column: all cells
integers gives `int64` (canonical integer text), all cells numeric-or-NA
gives `float64` (canonical float text, NA written empty), anything else
gives `object` (cells kept verbatim, NA tokens still read as `NaN` and
written empty). -/
def columnRewrite (cells : List String) : String → String :=
  if cells.all cellIsInt then intNormalize
  else if cells.all fun t => isNAToken t || (parseAmount t).isSome then
    fun s => if isNAToken s then "" else floatNormalize s
  else fun s => if isNAToken s then "" else s

/-- One `read_csv`-then-`to_csv` pass over the stored rows, column by
column, as `adds_expense` performs on every append after the first.  The
dtype interaction between the stored columns and the freshly appended
in-memory row (an int column upcast to float by a float append) is out of
scope: it only further rewrites cells this model already rewrites. -/
def readWriteCycle (rows : List Row) : List Row :=
  let fd := columnRewrite (rows.map Row.date)
  let fa := columnRewrite (rows.map Row.amount)
  let fc := columnRewrite (rows.map Row.category)
  let fx := columnRewrite (rows.map Row.descr)
  rows.map fun r => ⟨fd r.date, fa r.amount, fc r.category, fx r.descr⟩

/-- `adds_expense`: re-read the whole file through `read_csv` (if present),
append one row, rewrite everything with `to_csv`; the stored rows pass
through the read/write normalization, the new row is serialized from the
in-memory values as given.  Returns the new file contents and the
message. -/
def addsExpense (file : Option (List Row)) (date amount category descr : String) :
    Option (List Row) × String :=
  match file with
  | none => (some [⟨date, amount, category, descr⟩], "Expense added successfully!")
  | some rows =>
      (some (readWriteCycle rows ++ [⟨date, amount, category, descr⟩]),
       "Expense added successfully!")

/-- A cell no `read_csv`/`to_csv` cycle rewrites, whatever the rest of its
column holds: empty or not an NA token, not a bare integer (an int or float
column would re-serialize it), and if numeric then already in canonical
float form.  Everything the UI itself stores — ISO dates, `float` amounts,
the category enumeration, ordinary descriptions — is of this shape. -/
def cellStable (s : String) : Bool :=
  (decide (s = "") || !isNAToken s) && !cellIsInt s &&
    (!(parseAmount s).isSome || decide (floatNormalize s = s))

def rowStable (r : Row) : Bool :=
  cellStable r.date && cellStable r.amount && cellStable r.category &&
    cellStable r.descr

/-- Append a list of records one `adds_expense` call at a time. -/
def appendAll (file : Option (List Row)) : List Row → Option (List Row)
  | [] => file
  | r :: rs => appendAll (addsExpense file r.date r.amount r.category r.descr).1 rs

/-- Reading the store back: the rows of the file, or nothing. -/
def readStore (file : Option (List Row)) : List Row :=
  file.getD []

/-- Whether `pd.read_csv` gives the `Amount` column a numeric dtype: every
cell is a decimal literal or empty (an empty cell reads as `NaN` and keeps
the column numeric). -/
def amountColumnNumeric (rows : List Row) : Bool :=
  rows.all (fun r => r.amount.data.isEmpty || (parseAmount r.amount).isSome)

/-- Whether a row passes the block's filter
`df["Month"].astype(str) == current_month`: a coerce-failed date is `NaT`,
whose string never equals the current month. -/
def rowInMonth (r : Row) (cm : Month) : Bool :=
  match parseDate r.date with
  | some d => decide (d.toMonth = cm)
  | none => false

/-- The inline remaining-budget block (lines 213-221).  The `Date` column is
coerced but `Amount` is not: when every `Amount` cell is numeric or empty the
filtered column sums numerically (`NaN` cells skipped); otherwise the column
is `object` dtype, so a non-empty selection sums to a string and
`remaining_budget - total_expenses` raises the `TypeError` the block's
`except` turns into an error message, while an all-`NaN`/empty selection
still sums to `0`. -/
def remainingBudgetBlock (file : Option (List Row)) (cm : Month) (rb : ℚ) :
    Except String ℚ :=
  match file with
  | none => .ok (rb - 0)
  | some rows =>
    let masked := rows.filter (fun r => rowInMonth r cm)
    if amountColumnNumeric rows then
      .ok (rb - (masked.filterMap (fun r => parseAmount r.amount)).sum)
    else if masked.all (fun r => r.amount.data.isEmpty) then .ok (rb - 0)
    else .error "An error occurred while calculating the remaining budget"

/-- The sidebar conditional (lines 132-134): `monthly_income` and
`remaining_budget` are assigned only when `yearly_income > 0`. -/
def budgetVars (yearlyIncome savingsGoal : ℚ) : Option (ℚ × ℚ) :=
  if 0 < yearlyIncome then some (calculateTheMonthlyBudget yearlyIncome savingsGoal)
  else none

/-- The module tail (lines 209-225): the remaining-budget block runs only
under its own `yearly_income > 0` guard and reads the module-level
`remaining_budget`; a read before assignment would be Python's `NameError`. -/
def scriptBudgetSection (yearlyIncome savingsGoal : ℚ) (file : Option (List Row))
    (cm : Month) : Option (Except String ℚ) :=
  if 0 < yearlyIncome then
    match budgetVars yearlyIncome savingsGoal with
    | some (_, rb) => some (remainingBudgetBlock file cm rb)
    | none => some (.error "NameError: remaining_budget is not defined")
  else none

/-- Spec-side reading of "monthly total": the sum of validly-parsed Amounts
over the rows whose Month key is `m`, across all categories. -/
def specMonthlyTotal (rows : List Row) (m : Month) : ℚ :=
  (((validRows rows).filter fun r => decide (r.month = m)).map VRow.amount).sum

/-- Spec-side reading of a report cell: the exact sum of the Amounts of the
validly-parsed rows with Month key `m` and Category `c`. -/
def specCellTotal (rows : List Row) (m : Month) (c : String) : ℚ :=
  (((validRows rows).filter fun r =>
      decide (r.month = m ∧ r.category = c)).map VRow.amount).sum

/-- Spec-side reading of "per Month": the distinct Month keys of the
validly-parsed rows. -/
def specMonths (rows : List Row) : List Month :=
  ((validRows rows).map VRow.month).dedup

section GroupSumLemmas

variable {α κ : Type} [DecidableEq κ] (key : α → κ) (val : α → ℚ)

lemma lookupQ_upsert_self (k : κ) (v : ℚ) (l : List (κ × ℚ)) :
    lookupQ k (upsert k v l) = some ((lookupQ k l).getD 0 + v) := by
  induction l with
  | nil => simp [upsert, lookupQ]
  | cons p rest ih =>
    obtain ⟨k', v'⟩ := p
    by_cases h : k = k'
    · subst h
      simp [upsert, lookupQ]
    · simp [upsert, lookupQ, h, ih]

lemma lookupQ_upsert_ne (k k' : κ) (v : ℚ) (l : List (κ × ℚ)) (h : k ≠ k') :
    lookupQ k (upsert k' v l) = lookupQ k l := by
  induction l with
  | nil => simp [upsert, lookupQ, h]
  | cons p rest ih =>
    obtain ⟨k'', v''⟩ := p
    by_cases h2 : k' = k''
    · subst h2
      simp [upsert, lookupQ, h]
    · by_cases h3 : k = k''
      · subst h3
        simp [upsert, lookupQ, h2]
      · simp [upsert, lookupQ, h2, h3, ih]

lemma upsert_ne_nil (k : κ) (v : ℚ) (l : List (κ × ℚ)) : upsert k v l ≠ [] := by
  cases l with
  | nil => simp [upsert]
  | cons p rest =>
    obtain ⟨k', v'⟩ := p
    by_cases h : k = k' <;> simp [upsert, h]

lemma groupSum_lookupQ (l : List α) (k : κ) :
    (lookupQ k (groupSum key val l)).getD 0 =
      ((l.filter fun x => decide (key x = k)).map val).sum := by
  induction l with
  | nil => simp [groupSum, lookupQ]
  | cons x xs ih =>
    by_cases h : key x = k
    · subst h
      rw [groupSum, lookupQ_upsert_self]
      simp [List.filter_cons, ← ih, add_comm]
    · rw [groupSum, lookupQ_upsert_ne _ _ _ _ (fun hk => h hk.symm)]
      simp [List.filter_cons, h, ih]

lemma lookupQ_isSome_groupSum (l : List α) (k : κ) :
    (lookupQ k (groupSum key val l)).isSome ↔ k ∈ l.map key := by
  induction l with
  | nil => simp [groupSum, lookupQ]
  | cons x xs ih =>
    by_cases h : key x = k
    · subst h
      rw [groupSum, lookupQ_upsert_self]
      simp
    · rw [groupSum, lookupQ_upsert_ne _ _ _ _ (fun hk => h hk.symm), ih]
      simp only [List.map_cons, List.mem_cons]
      exact ⟨fun hm => Or.inr hm, fun hm => hm.resolve_left fun he => h he.symm⟩

lemma upsert_length (k : κ) (v : ℚ) (l : List (κ × ℚ)) :
    (upsert k v l).length =
      if (lookupQ k l).isSome then l.length else l.length + 1 := by
  induction l with
  | nil => simp [upsert, lookupQ]
  | cons p rest ih =>
    obtain ⟨k', v'⟩ := p
    by_cases h : k = k'
    · subst h
      simp [upsert, lookupQ]
    · simp only [upsert, lookupQ, if_neg h, List.length_cons, ih]
      by_cases h2 : (lookupQ k rest).isSome <;> simp [h2]

lemma groupSum_length (l : List α) :
    (groupSum key val l).length = (l.map key).dedup.length := by
  induction l with
  | nil => simp [groupSum]
  | cons x xs ih =>
    rw [groupSum, upsert_length]
    by_cases h : key x ∈ xs.map key
    · rw [if_pos (((lookupQ_isSome_groupSum key val) xs (key x)).mpr h), ih,
        List.map_cons, List.dedup_cons_of_mem h]
    · rw [if_neg, ih, List.map_cons, List.dedup_cons_of_not_mem h,
        List.length_cons]
      intro hs
      exact h (((lookupQ_isSome_groupSum key val) xs (key x)).mp hs)

lemma upsert_sum_snd (k : κ) (v : ℚ) (l : List (κ × ℚ)) :
    ((upsert k v l).map Prod.snd).sum = (l.map Prod.snd).sum + v := by
  induction l with
  | nil => simp [upsert]
  | cons p rest ih =>
    obtain ⟨k', v'⟩ := p
    by_cases h : k = k'
    · subst h
      simp [upsert]
      ring
    · simp [upsert, h, ih]
      ring

lemma groupSum_sum_snd (l : List α) :
    ((groupSum key val l).map Prod.snd).sum = (l.map val).sum := by
  induction l with
  | nil => simp [groupSum]
  | cons x xs ih =>
    rw [groupSum, upsert_sum_snd, ih, List.map_cons, List.sum_cons, add_comm]

lemma groupSum_eq_nil_iff (l : List α) : groupSum key val l = [] ↔ l = [] := by
  cases l with
  | nil => simp [groupSum]
  | cons x xs => simp [groupSum, upsert_ne_nil]

lemma sum_map_ite_of_not_mem (a : κ) (v : ℚ) (cs : List κ) (h : a ∉ cs) :
    (cs.map fun c => if a = c then v else 0).sum = 0 := by
  induction cs with
  | nil => simp
  | cons c cs ih =>
    have h1 : a ≠ c := fun hc => h (hc ▸ List.mem_cons_self c cs)
    have h2 : a ∉ cs := fun hc => h (List.mem_cons_of_mem c hc)
    simp [h1, ih h2]

lemma sum_map_ite_single (a : κ) (v : ℚ) (cs : List κ) (hd : cs.Nodup)
    (ha : a ∈ cs) : (cs.map fun c => if a = c then v else 0).sum = v := by
  induction cs with
  | nil => simp at ha
  | cons c cs ih =>
    rcases List.mem_cons.mp ha with h | h
    · subst h
      simp [sum_map_ite_of_not_mem a v cs (List.nodup_cons.mp hd).1]
    · have h1 : a ≠ c := by
        intro hc
        exact (List.nodup_cons.mp hd).1 (hc ▸ h)
      simp [h1, ih (List.nodup_cons.mp hd).2 h]

lemma sum_map_add_split (f g : κ → ℚ) (cs : List κ) :
    (cs.map fun c => f c + g c).sum = (cs.map f).sum + (cs.map g).sum := by
  induction cs with
  | nil => simp
  | cons c cs ih =>
    simp [ih]
    ring

lemma sum_filter_partition (cs : List κ) (l : List α) (hd : cs.Nodup)
    (hm : ∀ x ∈ l, key x ∈ cs) :
    (cs.map fun c => ((l.filter fun x => decide (key x = c)).map val).sum).sum
      = (l.map val).sum := by
  induction l with
  | nil =>
    simp
  | cons x l ih =>
    have hstep : ∀ c : κ,
        (((x :: l).filter fun y => decide (key y = c)).map val).sum
          = (if key x = c then val x else 0)
            + ((l.filter fun y => decide (key y = c)).map val).sum := by
      intro c
      by_cases h : key x = c <;> simp [List.filter_cons, h]
    calc
      (cs.map fun c =>
          (((x :: l).filter fun y => decide (key y = c)).map val).sum).sum
          = (cs.map fun c => (if key x = c then val x else 0)
              + ((l.filter fun y => decide (key y = c)).map val).sum).sum := by
            exact congrArg List.sum (List.map_congr_left fun c _ => hstep c)
      _ = (cs.map fun c => if key x = c then val x else 0).sum
            + (cs.map fun c =>
                ((l.filter fun y => decide (key y = c)).map val).sum).sum :=
            sum_map_add_split _ _ cs
      _ = val x + (l.map val).sum := by
            rw [sum_map_ite_single (key x) (val x) cs hd
                (hm x (List.mem_cons_self x l)),
              ih fun y hy => hm y (List.mem_cons_of_mem x hy)]
      _ = ((x :: l).map val).sum := by simp

lemma sum_filter_dedup (l : List α) :
    ((l.map key).dedup.map fun k =>
        ((l.filter fun x => decide (key x = k)).map val).sum).sum
      = (l.map val).sum :=
  sum_filter_partition key val (l.map key).dedup l (List.nodup_dedup _)
    (fun x hx => List.mem_dedup.mpr (List.mem_map_of_mem _ hx))

end GroupSumLemmas

lemma columnRewrite_stable (cells : List String) (s : String)
    (hs : cellStable s = true) (hmem : s ∈ cells) :
    columnRewrite cells s = s := by
  have hs' := hs
  simp only [cellStable, Bool.and_eq_true, Bool.or_eq_true, Bool.not_eq_true',
    decide_eq_true_eq] at hs'
  obtain ⟨⟨hna, hint⟩, hfl⟩ := hs'
  by_cases h1 : cells.all cellIsInt
  · exact absurd (List.all_eq_true.mp h1 s hmem) (by simp [hint])
  · by_cases h2 : cells.all fun t => isNAToken t || (parseAmount t).isSome
    · rw [columnRewrite, if_neg h1, if_pos h2]
      by_cases hna2 : isNAToken s = true
      · rcases hna with he | hf
        · rw [if_pos hna2, he]
        · exact absurd hna2 (by simp [hf])
      · rw [if_neg hna2]
        have := List.all_eq_true.mp h2 s hmem
        rcases (Bool.or_eq_true _ _).mp this with h | h
        · exact absurd h hna2
        · rcases hfl with hf | hf
          · rw [hf] at h
            exact absurd h (by simp)
          · exact hf
    · rw [columnRewrite, if_neg h1, if_neg h2]
      by_cases hna2 : isNAToken s = true
      · rcases hna with he | hf
        · rw [if_pos hna2, he]
        · exact absurd hna2 (by simp [hf])
      · rw [if_neg hna2]

lemma readWriteCycle_of_stable (rows : List Row)
    (h : rows.all rowStable = true) : readWriteCycle rows = rows := by
  have hpt : ∀ r ∈ rows,
      (⟨columnRewrite (rows.map Row.date) r.date,
        columnRewrite (rows.map Row.amount) r.amount,
        columnRewrite (rows.map Row.category) r.category,
        columnRewrite (rows.map Row.descr) r.descr⟩ : Row) = r := by
    intro r hr
    have hst := List.all_eq_true.mp h r hr
    simp only [rowStable, Bool.and_eq_true] at hst
    obtain ⟨⟨⟨h1, h2⟩, h3⟩, h4⟩ := hst
    rw [columnRewrite_stable _ _ h1 (List.mem_map_of_mem Row.date hr),
      columnRewrite_stable _ _ h2 (List.mem_map_of_mem Row.amount hr),
      columnRewrite_stable _ _ h3 (List.mem_map_of_mem Row.category hr),
      columnRewrite_stable _ _ h4 (List.mem_map_of_mem Row.descr hr)]
  exact (List.map_congr_left hpt).trans (List.map_id rows)

lemma appendAll_stable (rs : List Row) (f : List Row)
    (hf : f.all rowStable = true) (hrs : rs.all rowStable = true) :
    appendAll (some f) rs = some (f ++ rs) := by
  induction rs generalizing f with
  | nil => simp [appendAll]
  | cons r rs ih =>
    have hr : rowStable r = true := by
      have := hrs
      simp only [List.all_cons, Bool.and_eq_true] at this
      exact this.1
    have hrs' : rs.all rowStable = true := by
      have := hrs
      simp only [List.all_cons, Bool.and_eq_true] at this
      exact this.2
    have hfr : (f ++ [r]).all rowStable = true := by
      simp [List.all_append, hf, hr]
    calc appendAll (some f) (r :: rs)
        = appendAll (some (f ++ [r])) rs := by
          simp [appendAll, addsExpense, readWriteCycle_of_stable f hf]
      _ = some ((f ++ [r]) ++ rs) := ih (f ++ [r]) hfr hrs'
      _ = some (f ++ r :: rs) := by simp

lemma readWriteCycle_length (rows : List Row) :
    (readWriteCycle rows).length = rows.length := by
  simp [readWriteCycle]

lemma appendAll_length (rs : List Row) (f : List Row) :
    ∃ g, appendAll (some f) rs = some g ∧ g.length = f.length + rs.length := by
  induction rs generalizing f with
  | nil => exact ⟨f, rfl, by simp [appendAll]⟩
  | cons r rs ih =>
    obtain ⟨g, hg, hlen⟩ := ih (readWriteCycle f ++ [r])
    refine ⟨g, by simpa [appendAll, addsExpense] using hg, ?_⟩
    rw [hlen]
    simp [readWriteCycle_length]
    omega

/-- Claim C2 as stated is false: `adds_expense` re-reads the stored file
with `read_csv` and rewrites it with `to_csv`, and that cycle blanks
NA-like cells.  Appending a record with Description "NA" and then any
second record reads back the first record with an empty Description, not
the appended value. -/
theorem claim2_counterexample :
    readStore (appendAll none [⟨"2024-01-05", "100.0", "Food", "NA"⟩,
        ⟨"2024-01-06", "50.0", "Food", "x"⟩]) =
      [⟨"2024-01-05", "100.0", "Food", ""⟩,
        ⟨"2024-01-06", "50.0", "Food", "x"⟩] ∧
    readStore (appendAll none [⟨"2024-01-05", "100.0", "Food", "NA"⟩,
        ⟨"2024-01-06", "50.0", "Food", "x"⟩]) ≠
      [⟨"2024-01-05", "100.0", "Food", "NA"⟩,
        ⟨"2024-01-06", "50.0", "Food", "x"⟩] :=
  ⟨by decide, by decide⟩

/-- Claim C2 amended: appending N records starting from no file and reading
back always yields exactly N records in the same order, and the fields
round-trip exactly provided every cell is stable under the CSV re-read
normalization (empty or not an NA token, not a bare integer, and canonical
if numeric) — the shape of everything the UI itself writes.  Unstable cells
are normalized (NA tokens blanked, numerals re-serialized), not
preserved. -/
theorem claim2_round_trip :
    (∀ rs : List Row, rs.all rowStable = true →
      readStore (appendAll none rs) = rs) ∧
    ∀ rs : List Row, (readStore (appendAll none rs)).length = rs.length := by
  constructor
  · intro rs hrs
    cases rs with
    | nil => rfl
    | cons r rs =>
      have hr : rowStable r = true := by
        have := hrs
        simp only [List.all_cons, Bool.and_eq_true] at this
        exact this.1
      have hrs' : rs.all rowStable = true := by
        have := hrs
        simp only [List.all_cons, Bool.and_eq_true] at this
        exact this.2
      have h1 : appendAll (none : Option (List Row)) (r :: rs)
          = appendAll (some [r]) rs := by
        simp [appendAll, addsExpense]
      rw [h1, appendAll_stable rs [r] (by simp [hr]) hrs', readStore]
      rfl
  · intro rs
    cases rs with
    | nil => rfl
    | cons r rs =>
      obtain ⟨g, hg, hlen⟩ := appendAll_length rs [r]
      have h1 : appendAll (none : Option (List Row)) (r :: rs)
          = appendAll (some [r]) rs := by
        simp [appendAll, addsExpense]
      rw [h1, hg, readStore]
      simp [hlen]
      omega

/-- Witness for the amended C2: two normalization-stable records (the shape
the UI writes) round-trip exactly. -/
theorem claim2_witness :
    ([⟨"2024-01-05", "100.0", "Food", "lunch"⟩,
      ⟨"2024-01-06", "50.0", "Food", ""⟩] : List Row).all rowStable = true ∧
    readStore (appendAll none [⟨"2024-01-05", "100.0", "Food", "lunch"⟩,
        ⟨"2024-01-06", "50.0", "Food", ""⟩]) =
      [⟨"2024-01-05", "100.0", "Food", "lunch"⟩,
        ⟨"2024-01-06", "50.0", "Food", ""⟩] :=
  ⟨by decide, claim2_round_trip.1 [⟨"2024-01-05", "100.0", "Food", "lunch"⟩,
    ⟨"2024-01-06", "50.0", "Food", ""⟩] (by decide)⟩

/-- C4: `calculate_the_monthly_budget` is the pure function
`(yearly_income / 12, yearly_income / 12 - savings_goal)`; on `(120000, 500)`
it returns `(10000, 9500)`, and nothing stops the remainder from being
negative (`(1200, 200)` yields a negative remainder). -/
theorem claim4_monthly_budget :
    (∀ yi sg : ℚ, calculateTheMonthlyBudget yi sg = (yi / 12, yi / 12 - sg)) ∧
    calculateTheMonthlyBudget 120000 500 = (10000, 9500) ∧
    (calculateTheMonthlyBudget 1200 200).2 < 0 :=
  ⟨fun _ _ => rfl, by decide, by decide⟩

/-- C6: a missing data file is the empty state, not an error: the report and
the forecast return the no-data signal without raising, and the
remaining-budget block keeps `total_expenses = 0`. -/
theorem claim6_missing_file :
    viewReport none = (some "No expenses recorded yet!", none) ∧
    predictTheNextMonth none = .error "No expenses recorded yet!" ∧
    ∀ (cm : Month) (rb : ℚ), remainingBudgetBlock none cm rb = .ok (rb - 0) :=
  ⟨rfl, rfl, fun _ _ => rfl⟩

/-- C9: `view_report` returns either an error message or a table, never
both: exactly one component of the pair is present. -/
theorem claim9_error_xor_table (file : Option (List Row)) :
    ((viewReport file).1 = none ∧ ∃ t, (viewReport file).2 = some t) ∨
    ((∃ m, (viewReport file).1 = some m) ∧ (viewReport file).2 = none) := by
  cases file with
  | none => exact Or.inr ⟨⟨_, rfl⟩, rfl⟩
  | some rows => exact Or.inl ⟨rfl, _, rfl⟩

lemma parseRow_eq_none_of_bad (bad : Row)
    (h : parseDate bad.date = none ∨ parseAmount bad.amount = none) :
    parseRow bad = none := by
  rcases h with h | h
  · simp [parseRow, h]
  · cases hd : parseDate bad.date <;> simp [parseRow, h, hd]

lemma validRows_insert_bad (l1 l2 : List Row) (bad : Row)
    (h : parseRow bad = none) :
    validRows (l1 ++ bad :: l2) = validRows (l1 ++ l2) := by
  simp [validRows, List.filterMap_append, List.filterMap_cons, h]

/-- C5: a row whose Date or Amount fails coercion is dropped from both the
report and the forecast — inserting it anywhere changes neither result —
and neither operation returns an error because of it. -/
theorem claim5_malformed_dropped (l1 l2 : List Row) (bad : Row)
    (h : parseDate bad.date = none ∨ parseAmount bad.amount = none) :
    viewReport (some (l1 ++ bad :: l2)) = viewReport (some (l1 ++ l2)) ∧
    predictTheNextMonth (some (l1 ++ bad :: l2)) =
      predictTheNextMonth (some (l1 ++ l2)) ∧
    (∃ t, (viewReport (some (l1 ++ bad :: l2))).2 = some t) ∧
    ∃ p, predictTheNextMonth (some (l1 ++ bad :: l2)) = .ok p := by
  have hv := validRows_insert_bad l1 l2 bad (parseRow_eq_none_of_bad bad h)
  refine ⟨by simp [viewReport, hv], by simp [predictTheNextMonth, hv],
    ⟨_, rfl⟩, ?_⟩
  cases hE : (monthlyTotals (validRows (l1 ++ bad :: l2))).isEmpty with
  | true => exact ⟨none, by simp [predictTheNextMonth, hE]⟩
  | false =>
    exact ⟨some (((monthlyTotals (validRows (l1 ++ bad :: l2))).map
        Prod.snd).sum / ((monthlyTotals (validRows (l1 ++ bad :: l2))).length : ℚ)),
      by simp [predictTheNextMonth, hE]⟩

/-- Witness for C5 at a concrete store: one valid record plus one
unparseable-date record. -/
theorem claim5_witness :
    viewReport (some [⟨"2024-01-05", "100", "Food", "x"⟩,
        ⟨"not-a-date", "5", "Food", "y"⟩]) =
      viewReport (some [⟨"2024-01-05", "100", "Food", "x"⟩]) :=
  (claim5_malformed_dropped [⟨"2024-01-05", "100", "Food", "x"⟩] []
    ⟨"not-a-date", "5", "Food", "y"⟩ (Or.inl (by decide))).1

lemma remainingBudgetBlock_cases (file : Option (List Row)) (cm : Month)
    (rb : ℚ) :
    (∃ q, remainingBudgetBlock file cm rb = .ok q) ∨
    remainingBudgetBlock file cm rb =
      .error "An error occurred while calculating the remaining budget" := by
  cases file with
  | none => exact Or.inl ⟨_, rfl⟩
  | some rows =>
    by_cases h1 : amountColumnNumeric rows
    · exact Or.inl ⟨rb - ((rows.filter fun r => rowInMonth r cm).filterMap
        fun r => parseAmount r.amount).sum, by simp [remainingBudgetBlock, h1]⟩
    · by_cases h2 : (rows.filter fun r => rowInMonth r cm).all
          fun r => r.amount.data.isEmpty
      · exact Or.inl ⟨rb - 0, by simp [remainingBudgetBlock, h1, h2]⟩
      · exact Or.inr (by simp [remainingBudgetBlock, h1, h2])

/-- C10: the remaining-budget block runs only under the same
`yearly_income > 0` guard under which `remaining_budget` is assigned, so
whenever the block executes the variable is defined and the use-of-unset
`NameError` path is unreachable. -/
theorem claim10_guard (yi sg : ℚ) (file : Option (List Row)) (cm : Month) :
    ((scriptBudgetSection yi sg file cm).isSome ↔ (budgetVars yi sg).isSome) ∧
    (0 < yi → scriptBudgetSection yi sg file cm =
      some (remainingBudgetBlock file cm (calculateTheMonthlyBudget yi sg).2)) ∧
    scriptBudgetSection yi sg file cm ≠
      some (.error "NameError: remaining_budget is not defined") := by
  by_cases h : 0 < yi
  · refine ⟨by simp [scriptBudgetSection, budgetVars, h],
      fun _ => by simp [scriptBudgetSection, budgetVars, h], ?_⟩
    intro heq
    rw [show scriptBudgetSection yi sg file cm =
        some (remainingBudgetBlock file cm (calculateTheMonthlyBudget yi sg).2)
      from by simp [scriptBudgetSection, budgetVars, h]] at heq
    rcases remainingBudgetBlock_cases file cm
        (calculateTheMonthlyBudget yi sg).2 with ⟨q, hq⟩ | hq <;>
      rw [hq] at heq <;> simp at heq
  · refine ⟨by simp [scriptBudgetSection, budgetVars, h], fun hy => absurd hy h,
      by simp [scriptBudgetSection, h]⟩

/-- Witness for C10 at concrete inputs with positive income. -/
theorem claim10_witness :
    0 < (120000 : ℚ) ∧
    scriptBudgetSection 120000 500 none ⟨2026, 10⟩ =
      some (remainingBudgetBlock none ⟨2026, 10⟩
        (calculateTheMonthlyBudget 120000 500).2) :=
  ⟨by decide, (claim10_guard 120000 500 none ⟨2026, 10⟩).2.1 (by decide)⟩

/-- Claim C3: on at least one validly-parsed row, the forecast is the
arithmetic mean of the per-Month totals of Amount across all categories;
on two months totalling 100 and 300 it is 200. -/
theorem claim3_forecast_mean :
    (∀ rows : List Row, validRows rows ≠ [] →
      predictTheNextMonth (some rows) =
        .ok (some (((specMonths rows).map (specMonthlyTotal rows)).sum /
          ((specMonths rows).length : ℚ)))) ∧
    predictTheNextMonth (some [⟨"2024-01-05", "100", "Food", ""⟩,
      ⟨"2024-02-10", "300", "Rent", ""⟩]) = .ok (some 200) := by
  constructor
  · intro rows hne
    have hE : (monthlyTotals (validRows rows)).isEmpty = false := by
      cases hgs : monthlyTotals (validRows rows) with
      | nil =>
        exact absurd ((groupSum_eq_nil_iff VRow.month VRow.amount
          (validRows rows)).mp hgs) hne
      | cons p l => rfl
    have hsum : ((monthlyTotals (validRows rows)).map Prod.snd).sum
        = ((specMonths rows).map (specMonthlyTotal rows)).sum :=
      calc ((monthlyTotals (validRows rows)).map Prod.snd).sum
          = ((validRows rows).map VRow.amount).sum :=
            groupSum_sum_snd VRow.month VRow.amount (validRows rows)
        _ = ((specMonths rows).map (specMonthlyTotal rows)).sum :=
            (sum_filter_dedup VRow.month VRow.amount (validRows rows)).symm
    have hlen : (monthlyTotals (validRows rows)).length
        = (specMonths rows).length :=
      groupSum_length VRow.month VRow.amount (validRows rows)
    rw [show predictTheNextMonth (some rows) =
        .ok (some (((monthlyTotals (validRows rows)).map Prod.snd).sum /
          ((monthlyTotals (validRows rows)).length : ℚ)))
      from by simp [predictTheNextMonth, hE], hsum, hlen]
  · decide

/-- Witness for C3 at a concrete one-month store: the prediction is that
month's total. -/
theorem claim3_witness :
    validRows [⟨"2024-03-02", "7", "Food", ""⟩] ≠ [] ∧
    predictTheNextMonth (some [⟨"2024-03-02", "7", "Food", ""⟩]) =
      .ok (some (((specMonths [⟨"2024-03-02", "7", "Food", ""⟩]).map
        (specMonthlyTotal [⟨"2024-03-02", "7", "Food", ""⟩])).sum /
          ((specMonths [⟨"2024-03-02", "7", "Food", ""⟩]).length : ℚ))) ∧
    predictTheNextMonth (some [⟨"2024-03-02", "7", "Food", ""⟩]) =
      .ok (some 7) :=
  ⟨by decide, claim3_forecast_mean.1 [⟨"2024-03-02", "7", "Food", ""⟩]
    (by decide), by decide⟩

/-- Claim C7: every cell of the report table is the exact sum of the
validly-parsed Amounts with that Month key and Category, and a combination
with no records holds 0. -/
theorem claim7_report_cells (rows : List Row) (t : ReportTable) (m : Month)
    (c : String) (ht : (viewReport (some rows)).2 = some t) :
    reportCell t m c = specCellTotal rows m c ∧
    (((validRows rows).filter fun r =>
        decide (r.month = m ∧ r.category = c)) = [] →
      reportCell t m c = 0) := by
  have h2 : buildReport (validRows rows) = t := by simpa [viewReport] using ht
  subst h2
  have hcell : reportCell (buildReport (validRows rows)) m c
      = (((validRows rows).filter fun r =>
          decide ((r.month, r.category) = (m, c))).map VRow.amount).sum :=
    groupSum_lookupQ (fun r : VRow => (r.month, r.category)) VRow.amount
      (validRows rows) (m, c)
  have hpred : ((validRows rows).filter fun r =>
        decide ((r.month, r.category) = (m, c)))
      = ((validRows rows).filter fun r =>
        decide (r.month = m ∧ r.category = c)) := by
    apply List.filter_congr
    intro r _
    simp [Prod.ext_iff]
  refine ⟨by rw [hcell, hpred]; rfl, fun hnil => ?_⟩
  rw [hcell, hpred, hnil]
  simp

/-- Witness for C7: three records, two sharing (2024-01, Food); that cell is
their exact sum 30, and an absent combination is 0. -/
theorem claim7_witness :
    (viewReport (some [⟨"2024-01-05", "10.5", "Food", ""⟩,
        ⟨"2024-01-20", "19.5", "Food", ""⟩, ⟨"2024-01-21", "7", "Rent", ""⟩])).2
      = some (buildReport (validRows [⟨"2024-01-05", "10.5", "Food", ""⟩,
        ⟨"2024-01-20", "19.5", "Food", ""⟩, ⟨"2024-01-21", "7", "Rent", ""⟩])) ∧
    reportCell (buildReport (validRows [⟨"2024-01-05", "10.5", "Food", ""⟩,
        ⟨"2024-01-20", "19.5", "Food", ""⟩, ⟨"2024-01-21", "7", "Rent", ""⟩]))
        ⟨2024, 1⟩ "Food"
      = specCellTotal [⟨"2024-01-05", "10.5", "Food", ""⟩,
        ⟨"2024-01-20", "19.5", "Food", ""⟩, ⟨"2024-01-21", "7", "Rent", ""⟩]
        ⟨2024, 1⟩ "Food" ∧
    specCellTotal [⟨"2024-01-05", "10.5", "Food", ""⟩,
        ⟨"2024-01-20", "19.5", "Food", ""⟩, ⟨"2024-01-21", "7", "Rent", ""⟩]
        ⟨2024, 1⟩ "Food" = 30 ∧
    reportCell (buildReport (validRows [⟨"2024-01-05", "10.5", "Food", ""⟩,
        ⟨"2024-01-20", "19.5", "Food", ""⟩, ⟨"2024-01-21", "7", "Rent", ""⟩]))
        ⟨2024, 2⟩ "Food" = 0 :=
  ⟨rfl,
   (claim7_report_cells [⟨"2024-01-05", "10.5", "Food", ""⟩,
      ⟨"2024-01-20", "19.5", "Food", ""⟩, ⟨"2024-01-21", "7", "Rent", ""⟩]
      (buildReport (validRows [⟨"2024-01-05", "10.5", "Food", ""⟩,
        ⟨"2024-01-20", "19.5", "Food", ""⟩, ⟨"2024-01-21", "7", "Rent", ""⟩]))
      ⟨2024, 1⟩ "Food" rfl).1,
   by decide,
   (claim7_report_cells [⟨"2024-01-05", "10.5", "Food", ""⟩,
      ⟨"2024-01-20", "19.5", "Food", ""⟩, ⟨"2024-01-21", "7", "Rent", ""⟩]
      (buildReport (validRows [⟨"2024-01-05", "10.5", "Food", ""⟩,
        ⟨"2024-01-20", "19.5", "Food", ""⟩, ⟨"2024-01-21", "7", "Rent", ""⟩]))
      ⟨2024, 2⟩ "Food" rfl).2 (by decide)⟩

/-- Claim C8: for every month, the monthly total the forecaster computes
equals the sum across all category columns of that month's row in the
report table. -/
theorem claim8_totals_agree (rows : List Row) (m : Month) :
    (lookupQ m (monthlyTotals (validRows rows))).getD 0 =
      ((buildReport (validRows rows)).categories.map
        fun c => reportCell (buildReport (validRows rows)) m c).sum := by
  have hL : (lookupQ m (monthlyTotals (validRows rows))).getD 0
      = (((validRows rows).filter fun r =>
          decide (VRow.month r = m)).map VRow.amount).sum :=
    groupSum_lookupQ VRow.month VRow.amount (validRows rows) m
  have hcell : ∀ c : String, reportCell (buildReport (validRows rows)) m c
      = ((((validRows rows).filter fun r => decide (VRow.month r = m)).filter
          fun r => decide (VRow.category r = c)).map VRow.amount).sum := by
    intro c
    have h1 : reportCell (buildReport (validRows rows)) m c
        = (((validRows rows).filter fun r =>
            decide ((r.month, r.category) = (m, c))).map VRow.amount).sum :=
      groupSum_lookupQ (fun r : VRow => (r.month, r.category)) VRow.amount
        (validRows rows) (m, c)
    rw [h1, List.filter_filter]
    apply congrArg List.sum
    apply congrArg (List.map VRow.amount)
    apply List.filter_congr
    intro r _
    by_cases hm : r.month = m <;> by_cases hc : r.category = c <;>
      simp [hm, hc, Prod.ext_iff]
  rw [hL, show ((buildReport (validRows rows)).categories.map
      fun c => reportCell (buildReport (validRows rows)) m c).sum
    = (((validRows rows).map VRow.category).dedup.map fun c =>
        ((((validRows rows).filter fun r => decide (VRow.month r = m)).filter
          fun r => decide (VRow.category r = c)).map VRow.amount).sum).sum
    from congrArg List.sum (List.map_congr_left fun c _ => hcell c)]
  exact (sum_filter_partition VRow.category VRow.amount
    ((validRows rows).map VRow.category).dedup
    ((validRows rows).filter fun r => decide (VRow.month r = m))
    (List.nodup_dedup _)
    (fun x hx => List.mem_dedup.mpr
      (List.mem_map_of_mem _ (List.mem_of_mem_filter hx)))).symm

lemma maskedSum_eq_specMonthlyTotal (rows : List Row) (cm : Month) :
    ((rows.filter fun r => rowInMonth r cm).filterMap
        fun r => parseAmount r.amount).sum
      = specMonthlyTotal rows cm := by
  induction rows with
  | nil => simp [specMonthlyTotal, validRows]
  | cons r rest ih =>
    rw [specMonthlyTotal, validRows] at ih ⊢
    cases hd : parseDate r.date with
    | none =>
      have h1 : rowInMonth r cm = false := by simp [rowInMonth, hd]
      have h2 : parseRow r = none := by simp [parseRow, hd]
      simp only [List.filter_cons, List.filterMap_cons, h1, h2,
        Bool.false_eq_true, if_false]
      exact ih
    | some d =>
      cases ha : parseAmount r.amount with
      | none =>
        have h2 : parseRow r = none := by simp [parseRow, hd, ha]
        by_cases hm : d.toMonth = cm
        · have h1 : rowInMonth r cm = true := by simp [rowInMonth, hd, hm]
          simp only [List.filter_cons, List.filterMap_cons, h1, h2, ha,
            if_true]
          exact ih
        · have h1 : rowInMonth r cm = false := by simp [rowInMonth, hd, hm]
          simp only [List.filter_cons, List.filterMap_cons, h1, h2,
            Bool.false_eq_true, if_false]
          exact ih
      | some a =>
        have h2 : parseRow r = some ⟨d.toMonth, a, r.category⟩ := by
          simp [parseRow, hd, ha]
        by_cases hm : d.toMonth = cm
        · have h1 : rowInMonth r cm = true := by simp [rowInMonth, hd, hm]
          simp only [List.filter_cons, List.filterMap_cons, h1, h2, ha,
            if_true]
          simp [hm, ih]
        · have h1 : rowInMonth r cm = false := by simp [rowInMonth, hd, hm]
          simp only [List.filter_cons, List.filterMap_cons, h1, h2,
            Bool.false_eq_true, if_false]
          rw [if_neg (by simp [hm])]
          exact ih

/-- Claim C1 as stated is false: the remaining-budget block does not apply
the report's malformed-row tolerance to Amount.  With the single row
(2026-10-05, "abc", Food), the tolerant computation the claim describes
yields `remaining_budget - 0`, but the block fails with the caught
error. -/
theorem claim1_counterexample :
    remainingBudgetBlock (some [⟨"2026-10-05", "abc", "Food", ""⟩])
        ⟨2026, 10⟩ 100 =
      .error "An error occurred while calculating the remaining budget" ∧
    (100 : ℚ) - specMonthlyTotal [⟨"2026-10-05", "abc", "Food", ""⟩]
        ⟨2026, 10⟩ = 100 ∧
    remainingBudgetBlock (some [⟨"2026-10-05", "abc", "Food", ""⟩])
        ⟨2026, 10⟩ 100 ≠
      .ok (100 - specMonthlyTotal [⟨"2026-10-05", "abc", "Food", ""⟩]
        ⟨2026, 10⟩) :=
  ⟨by decide, by decide, by decide⟩

/-- Claim C1 amended: the block tolerates malformed Dates only (their month
key never matches the current month), and when every Amount cell is numeric
or empty the displayed value is `remaining_budget` minus the sum of
validly-parsed current-month Amounts; a non-numeric non-empty Amount is not
dropped but makes the computation fail. -/
theorem claim1_amended_budget (rows : List Row) (cm : Month) (rb : ℚ)
    (h : amountColumnNumeric rows = true) :
    remainingBudgetBlock (some rows) cm rb =
      .ok (rb - specMonthlyTotal rows cm) := by
  rw [show remainingBudgetBlock (some rows) cm rb =
      .ok (rb - ((rows.filter fun r => rowInMonth r cm).filterMap
        fun r => parseAmount r.amount).sum)
    from by simp [remainingBudgetBlock, h], maskedSum_eq_specMonthlyTotal]

/-- Witness for the amended C1: an all-numeric store with one current-month
row (12.5) and one bad-date row; the block shows `100 - 12.5`. -/
theorem claim1_witness :
    amountColumnNumeric [⟨"2026-10-07", "12.5", "Food", ""⟩,
      ⟨"not-a-date", "3", "Bills", ""⟩] = true ∧
    remainingBudgetBlock (some [⟨"2026-10-07", "12.5", "Food", ""⟩,
        ⟨"not-a-date", "3", "Bills", ""⟩]) ⟨2026, 10⟩ 100 =
      .ok (100 - specMonthlyTotal [⟨"2026-10-07", "12.5", "Food", ""⟩,
        ⟨"not-a-date", "3", "Bills", ""⟩] ⟨2026, 10⟩) ∧
    specMonthlyTotal [⟨"2026-10-07", "12.5", "Food", ""⟩,
      ⟨"not-a-date", "3", "Bills", ""⟩] ⟨2026, 10⟩ = 25 / 2 :=
  ⟨by decide,
   claim1_amended_budget [⟨"2026-10-07", "12.5", "Food", ""⟩,
     ⟨"not-a-date", "3", "Bills", ""⟩] ⟨2026, 10⟩ 100 (by decide),
   by decide⟩

end ExpenseTracker
